import Mathlib

/-!
Verification development for the baresip-apps intercom call-admission
subsystem (src/modules/intercom): custom-intent registry (iccustom.c),
admission engine (events.c) and hidden-call signaling state machine
(ichidden.c).

Modelling conventions:
* `struct pl` (pointer + length slices of libre) are modelled as
  `List Char`.  In this module every header value and registry field is
  backed by a NUL-terminated allocation whose length equals the slice
  length (values are installed with `pl_set_str` / `pl_strdup`), so C
  `strncmp` on such a slice sees exactly the slice's characters followed
  by a terminating NUL; `strncmp0` below embeds `strncmp(...) == 0`
  under that invariant.  SIP header values contain no interior NUL.
* Machine integers that matter here (`int32_t` answer delay, `uint16_t`
  status code) never overflow on the modelled paths and are embedded as
  `Int` / `Nat`.
* Allocation failure (`ENOMEM`) is not modelled: `mem_zalloc` is assumed
  to succeed, as every claim is about the success path.
-/

namespace Intercom

/-- Characters of a string literal (contents of a C string). -/
def lc (s : String) : List Char := s.data

/-- Embeds `strncmp(a, b, n) == 0` for NUL-terminated C strings whose
contents are the given lists (no interior NUL): comparison stops after
`n` characters or at the first mismatch; a terminating NUL mismatches
every real character. -/
def strncmp0 : List Char → List Char → Nat → Bool
  | _, _, 0 => true
  | [], [], _ + 1 => true
  | [], _ :: _, _ + 1 => false
  | _ :: _, [], _ + 1 => false
  | a :: as, b :: bs, n + 1 => a == b && strncmp0 as bs n

/-- SDP media direction (external `enum sdp_dir` of libre). -/
inductive SdpDir where
  | inactive
  | sendonly
  | recvonly
  | sendrecv
deriving DecidableEq, Repr

/-- Modelled from the spec: external libre `sdp_dir_decode`, mapping the
direction keywords to `enum sdp_dir`, defaulting to inactive. -/
def sdp_dir_decode (s : List Char) : SdpDir :=
  if s = lc "sendonly" then .sendonly
  else if s = lc "recvonly" then .recvonly
  else if s = lc "sendrecv" then .sendrecv
  else .inactive

/-- `struct iccustom` of iccustom.c: one registry entry. -/
structure Iccustom where
  subject : List Char
  dir : SdpDir
  allowed : Bool
  auffile : List Char
deriving DecidableEq, Repr

/-- `iccustom_lookup` of iccustom.c: the match predicate applied to each
entry — false if the value is shorter than the entry's subject, else a
byte compare of the first `subject.length` characters. -/
def iccustom_lookup (pl : List Char) (c : Iccustom) : Bool :=
  if pl.length < c.subject.length then false
  else strncmp0 pl c.subject c.subject.length

/-- Modelled from the spec: `iccustom_find` is not under src/ (only its
callers and the `iccustom_lookup` predicate are).  Per the spec the
registry is an ordered collection scanned in insertion order via an
apply-to-all primitive, returning the first entry whose
`iccustom_lookup` holds. -/
def iccustom_find (reg : List Iccustom) (pl : List Char) : Option Iccustom :=
  reg.find? (fun c => iccustom_lookup pl c)

/-- `ic_is_custom` of iccustom.c. -/
def ic_is_custom (reg : List Iccustom) (val : List Char) : Bool :=
  (iccustom_find reg val).isSome

/-- `iccustom_allowed` of iccustom.c: allowed flag of the matched entry,
false when there is no match. -/
def iccustom_allowed (reg : List Iccustom) (val : List Char) : Bool :=
  match iccustom_find reg val with
  | none => false
  | some c => c.allowed

/-- `iccustom_aufile` of iccustom.c: audio-file key of the matched
entry, `none` for the NULL return. -/
def iccustom_aufile (reg : List Iccustom) (val : List Char) : Option (List Char) :=
  match iccustom_find reg val with
  | none => none
  | some c => some c.auffile

/-- Modelled from the spec: external libre `pl_bool` — parses the usual
boolean literals case-insensitively; on anything else it fails
(returns `none`) and, in C, leaves the output variable untouched. -/
def pl_bool (s : List Char) : Option Bool :=
  let l := s.map Char.toLower
  if l = lc "1" ∨ l = lc "y" ∨ l = lc "yes" ∨ l = lc "t" ∨
     l = lc "true" ∨ l = lc "on" ∨ l = lc "enable" then some true
  else if l = lc "0" ∨ l = lc "n" ∨ l = lc "no" ∨ l = lc "f" ∨
     l = lc "false" ∨ l = lc "off" ∨ l = lc "disable" then some false
  else none

/-- Embeds `re_regex(line, len, "[^,]*,[^,]*,[^,]*,[^,]*", ...)`: the
match succeeds iff the line holds at least three commas; the four
captures are the maximal comma-free runs delimited by the first three
commas (the fourth run stops at the next comma or the end). -/
def parse_fields (line : List Char) : Option (List Char × List Char × List Char × List Char) :=
  match line.splitOn ',' with
  | f0 :: f1 :: f2 :: f3 :: _ => some (f0, f1, f2, f3)
  | _ => none

/-- `iccustom_handler` of iccustom.c: parse one configuration line; on
regex failure return the registry unchanged (error discarded, line
skipped); otherwise append a zero-initialised entry whose allowed flag
is set only if `pl_bool` succeeds (its error code is overwritten and
ignored). -/
def iccustom_handler (line : List Char) (reg : List Iccustom) : List Iccustom :=
  match parse_fields line with
  | none => reg
  | some (subject, dir, allowed, aufile) =>
      reg ++ [{ subject := subject
              , dir := sdp_dir_decode dir
              , allowed := (pl_bool allowed).getD false
              , auffile := aufile }]

/-! ### Admission engine (events.c) -/

/-- Global configuration surface read by events.c: the five policy keys
(`conf_get_bool` leaves the local default untouched when the key is
absent) and the preview-subject literal (`conf_get`, default
"preview"). -/
structure GlobalConf where
  icprivacy : Option Bool := none
  icallow_announce : Option Bool := none
  icallow_force : Option Bool := none
  icallow_surveil : Option Bool := none
  icallow_hidden : Option Bool := none
  icpreview_subject : Option (List Char) := none
deriving Repr

/-- The five effective policy flags of `incoming_handler`. -/
structure Policy where
  privacy : Bool
  allow_announce : Bool
  allow_force : Bool
  allow_surveil : Bool
  allow_hidden : Bool
deriving DecidableEq, Repr

/-- Lines 116-143 of events.c: local defaults overridden by
`conf_get_bool` when the global key is set. -/
def conf_policy (cfg : GlobalConf) : Policy :=
  { privacy := cfg.icprivacy.getD false
  , allow_announce := cfg.icallow_announce.getD true
  , allow_force := cfg.icallow_force.getD false
  , allow_surveil := cfg.icallow_surveil.getD false
  , allow_hidden := cfg.icallow_hidden.getD false }

/-- Split a parameter at its first `=`: key before, value after (empty
value when no `=` occurs). -/
def split_eq : List Char → List Char × List Char
  | [] => ([], [])
  | c :: cs =>
      if c = '=' then ([], cs)
      else
        let kv := split_eq cs
        (c :: kv.1, kv.2)

/-- Modelled from the spec: external libre `fmt_param_sep_get` — the
account extra string is a comma-separated list of `key=value` pairs;
returns the value of the first pair whose key equals `name`, `none`
when the key does not occur. -/
def fmt_param_sep_get (pl : List Char) (name : List Char) : Option (List Char) :=
  (pl.splitOn ',').findSome? (fun p =>
    let kv := split_eq p
    if kv.1 = name then some kv.2 else none)

/-- `account_extra_bool` of events.c, as its effect on the flag it may
overwrite: an unset extra string, a missing key, or a value other than
exactly "yes"/"no" leaves the flag unchanged. -/
def account_extra_bool (extra : List Char) (name : List Char) (set : Bool) : Bool :=
  if extra.isEmpty then set
  else
    match fmt_param_sep_get extra name with
    | none => set
    | some v =>
        if v = lc "yes" then true
        else if v = lc "no" then false
        else set

/-- Lines 145-149 of events.c: overlay the per-account extra string on
the global defaults, one `account_extra_bool` call per flag. -/
def resolve (g : Policy) (extra : List Char) : Policy :=
  { privacy := account_extra_bool extra (lc "icprivacy") g.privacy
  , allow_announce := account_extra_bool extra (lc "icallow_announce") g.allow_announce
  , allow_force := account_extra_bool extra (lc "icallow_force") g.allow_force
  , allow_surveil := account_extra_bool extra (lc "icallow_surveil") g.allow_surveil
  , allow_hidden := account_extra_bool extra (lc "icallow_hidden") g.allow_hidden }

/-- `is_normal` of events.c. -/
def is_normal (val : List Char) : Bool := val == lc "normal"

/-- `is_announcement` of events.c. -/
def is_announcement (val : List Char) : Bool := val == lc "announcement"

/-- `is_forcetalk` of events.c. -/
def is_forcetalk (val : List Char) : Bool := val == lc "forcetalk"

/-- `is_surveillance` of events.c. -/
def is_surveillance (val : List Char) : Bool := val == lc "surveillance"

/-- `is_hidden` of events.c. -/
def is_hidden (val : List Char) : Bool := val == lc "hidden"

/-- Effective preview-subject literal: configured value or the default
"preview". -/
def preview_subject (cfg : GlobalConf) : List Char :=
  cfg.icpreview_subject.getD (lc "preview")

/-- `is_preview` of events.c: `!strncmp(val->p, subj.p, subj.l)` — a
plain strncmp over the subject's length, with no check of the value's
own length (the value's terminating NUL stops a shorter value from
matching). -/
def is_preview (cfg : GlobalConf) (val : List Char) : Bool :=
  let subj := preview_subject cfg
  strncmp0 val subj subj.length

/-- `is_intercom` of events.c. -/
def is_intercom (reg : List Iccustom) (cfg : GlobalConf)
    (name val : List Char) : Bool :=
  if name ≠ lc "Subject" then false
  else
    is_normal val || is_announcement val || is_forcetalk val ||
    is_surveillance val || is_preview cfg val || is_hidden val ||
    ic_is_custom reg val

/-- Observable side effects of the admission engine, in emission
order. -/
inductive Action where
  | hangup (scode : Nat) (reason : List Char)
  | beventClosed (reason : List Char)
  | derefLater
  | moduleEvent (kind : List Char) (prm : List Char)
  | setAnswerDelay (d : Int)
  | startAnswtmr (d : Int)
  | progressDir (adir vdir : SdpDir)
deriving DecidableEq, Repr

/-- `reject_call` of events.c: hang up with the given status and
reason, emit the call-closed event carrying the reason, and schedule
the call for deferred destruction. -/
def reject_call (scode : Nat) (reason : List Char) : List Action :=
  [.hangup scode reason, .beventClosed reason, .derefLater]

/-- `incoming_handler` of events.c, as the list of emitted actions.
Inputs: the registry, global configuration, the account extra string,
the call's answer delay (`call_answer_delay`), and one custom header
pair (NULL arguments modelled as `none`). -/
def incoming_handler (reg : List Iccustom) (cfg : GlobalConf)
    (extra : List Char) (adelay : Int)
    (name val : Option (List Char)) : List Action :=
  match name, val with
  | some name, some val =>
    if ¬ is_intercom reg cfg name val then []
    else
      let pol := resolve (conf_policy cfg) extra
      if pol.privacy && is_normal val then
        [.setAnswerDelay (-1),
         .moduleEvent (lc "override-aufile") (lc "ring_aufile:icring_aufile")]
      else if is_hidden val then
        if ¬ pol.allow_hidden then
          reject_call 406 (lc "Not Acceptable")
        else if 0 ≤ adelay then
          [.startAnswtmr adelay]
        else []
      else
        Action.moduleEvent (lc "incoming") val ::
        (if is_normal val then
          [.moduleEvent (lc "override-aufile")
             (lc "sip_autoanswer_aufile:icnormal_aufile")]
        else if ic_is_custom reg val then
          if ¬ iccustom_allowed reg val then
            reject_call 406 (lc "Not Acceptable")
          else
            [.moduleEvent (lc "override-aufile")
               (lc "sip_autoanswer_aufile:" ++ (iccustom_aufile reg val).getD [])]
        else if is_announcement val then
          if ¬ pol.allow_announce then reject_call 406 (lc "Not Acceptable")
          else [.moduleEvent (lc "override-aufile")
                  (lc "sip_autoanswer_aufile:icannounce_aufile")]
        else if is_forcetalk val then
          if ¬ pol.allow_force then reject_call 406 (lc "Not Acceptable")
          else [.moduleEvent (lc "override-aufile")
                  (lc "sip_autoanswer_aufile:icforce_aufile")]
        else if is_surveillance val then
          if ¬ pol.allow_surveil then reject_call 406 (lc "Not Acceptable")
          else [.moduleEvent (lc "override-aufile")
                  (lc "sip_autoanswer_aufile:none")]
        else if is_preview cfg val then
          [.moduleEvent (lc "override-aufile") (lc "ring_aufile:icpreview_aufile"),
           .progressDir .inactive .recvonly]
        else [])
  | _, _ => []

/-- The generic "incoming" classification notification. -/
def is_incoming_ev : Action → Bool
  | .moduleEvent kind _ => kind == lc "incoming"
  | _ => false

/-- An override ("override-aufile") notification. -/
def is_override_ev : Action → Bool
  | .moduleEvent kind _ => kind == lc "override-aufile"
  | _ => false

/-- A hangup side effect. -/
def is_hangup_act : Action → Bool
  | .hangup _ _ => true
  | _ => false

/-! ### Hidden-call signaling state machine (ichidden.c) -/

/-- `enum hidden_state` of ichidden.c (`HIDDEN_ESTABLISHED = 0`, the
zero-initialised state of a fresh session). -/
inductive HiddenState where
  | established
  | send
  | close
deriving DecidableEq, Repr

/-- `struct hidden_call` of ichidden.c: call reference (modelled as an
opaque id), state, whether its timer is armed, and the DTMF code. -/
structure HiddenCall where
  call : Nat
  state : HiddenState
  tmr : Bool
  code : List Char
deriving DecidableEq, Repr

/-- `KEYCODE_REL` of the external baresip header: the reserved release
digit sent after the code. -/
def KEYCODE_REL : Char := Char.ofNat 4

/-- POSIX `EINVAL`. -/
def EINVAL : Nat := 22

/-- `hidden_call_append` of ichidden.c: zero-allocate a session
(state `HIDDEN_ESTABLISHED`, timer unarmed), copy the code, and append
it to the global `hcalls` list — with no check whether a session for
this call already exists; the function then returns 0. -/
def hidden_call_append (hcalls : List HiddenCall) (call : Nat)
    (code : List Char) : List HiddenCall :=
  hcalls ++ [{ call := call, state := .established, tmr := false, code := code }]

/-- `find_hidden_call` of ichidden.c: the per-element predicate. -/
def find_hidden_call (call : Nat) (hc : HiddenCall) : Bool :=
  hc.call == call

/-- `call_hidden_find` of ichidden.c: `list_apply(&hcalls, true, ...)`
scans head to tail and returns the first session for the call. -/
def call_hidden_find (hcalls : List HiddenCall) (call : Nat) : Option HiddenCall :=
  hcalls.find? (find_hidden_call call)

/-- Apply `f` to the first list element satisfying `p` (an in-place
mutation of the element `call_hidden_find` returned). -/
def update_first (p : HiddenCall → Bool) (f : HiddenCall → HiddenCall) :
    List HiddenCall → List HiddenCall
  | [] => []
  | x :: xs => if p x then f x :: xs else x :: update_first p f xs

/-- `call_hidden_start` of ichidden.c: EINVAL when no session exists
for the call or its state is not `HIDDEN_ESTABLISHED`; otherwise move
the session to `HIDDEN_SEND`, arm the 20 ms timer and return 0.
Result: the updated `hcalls` list and the return code. -/
def call_hidden_start (hcalls : List HiddenCall) (call : Nat) :
    List HiddenCall × Nat :=
  match call_hidden_find hcalls call with
  | none => (hcalls, EINVAL)
  | some hc =>
      if hc.state ≠ .established then (hcalls, EINVAL)
      else
        (update_first (find_hidden_call call)
           (fun h => { h with state := .send, tmr := true }) hcalls, 0)

/-- Inner loop of `call_send_code`: attempt each character while no
error has occurred (`i < str_len(code) && !err`).  `send c = some e`
means `call_send_digit` fails with error `e`.  Returns the digits
actually attempted and the final error. -/
def send_code_loop (send : Char → Option Nat) :
    List Char → List Char × Option Nat
  | [] => ([], none)
  | c :: cs =>
      match send c with
      | some e => ([c], some e)
      | none =>
          let r := send_code_loop send cs
          (c :: r.1, r.2)

/-- `call_send_code` of ichidden.c: send the code characters, aborting
on the first error; only when all succeeded is the release digit
attempted. -/
def call_send_code (send : Char → Option Nat) (code : List Char) :
    List Char × Option Nat :=
  let r := send_code_loop send code
  match r.2 with
  | some e => (r.1, some e)
  | none => (r.1 ++ [KEYCODE_REL], send KEYCODE_REL)

/-- Timer-driven side effects of the hidden-call machine. -/
inductive HAction where
  | sendDigit (c : Char)
  | hangup (scode : Nat)
  | tmrStart (ms : Nat)
  | tmrCancel
deriving DecidableEq, Repr

/-- `proc_hidden_call` of ichidden.c, one timer fire: `bufEmpty` is the
`audio_txtelev_empty` poll result.  In `HIDDEN_SEND`: move to
`HIDDEN_CLOSE`, send the code (result ignored) and re-arm the 20 ms
timer.  In `HIDDEN_CLOSE`: when the DTMF buffer is drained, hang up
(status 0, no reason) and destroy the session (`mem_deref` runs
`hidden_call_destructor`, which unlinks it and cancels its timer);
otherwise just re-arm the 20 ms timer.  Returns the surviving session
(`none` when destroyed) and the emitted side effects. -/
def proc_hidden_call (send : Char → Option Nat) (bufEmpty : Bool)
    (hc : HiddenCall) : Option HiddenCall × List HAction :=
  match hc.state with
  | .send =>
      let r := call_send_code send hc.code
      (some { hc with state := .close, tmr := true },
       r.1.map HAction.sendDigit ++ [.tmrStart 20])
  | .close =>
      if bufEmpty then
        (none, [.hangup 0, .tmrCancel])
      else
        (some { hc with tmr := true }, [.tmrStart 20])
  | .established => (some hc, [])

/-- A run of consecutive timer fires: `bs` lists the buffer-emptiness
poll results, one per fire; the run ends when the session is destroyed
(its timer was cancelled) or the fires are exhausted. -/
def timer_run (send : Char → Option Nat) (hc : HiddenCall) :
    List Bool → Option HiddenCall × List HAction
  | [] => (some hc, [])
  | b :: bs =>
      match proc_hidden_call send b hc with
      | (none, as) => (none, as)
      | (some hc2, as) =>
          let r := timer_run send hc2 bs
          (r.1, as ++ r.2)

/-- A DTMF-digit side effect. -/
def is_digit_act : HAction → Bool
  | .sendDigit _ => true
  | _ => false

/-- A hangup side effect of the hidden machine. -/
def is_hg_act : HAction → Bool
  | .hangup _ => true
  | _ => false

/-! ### Theorems -/

/-- Claim C10: a configuration line that matches the four-field shape
but whose third (allowed) field is not a valid boolean is still
appended to the registry — the boolean-parse error is discarded and the
entry's allowed flag stays false, instead of the line being skipped. -/
theorem C10_load_lenient_allowed (line : List Char) (reg : List Iccustom)
    (subject dir allowed aufile : List Char)
    (hp : parse_fields line = some (subject, dir, allowed, aufile))
    (hb : pl_bool allowed = none) :
    iccustom_handler line reg
      = reg ++ [{ subject := subject, dir := sdp_dir_decode dir,
                  allowed := false, auffile := aufile }] := by
  simp [iccustom_handler, hp, hb]

/-- Witness for C10 at the line "door,sendrecv,xyz,file.wav". -/
theorem C10_load_lenient_allowed_witness :
    iccustom_handler (lc "door,sendrecv,xyz,file.wav") []
      = [] ++ [{ subject := lc "door", dir := sdp_dir_decode (lc "sendrecv"),
                 allowed := false, auffile := lc "file.wav" }] :=
  C10_load_lenient_allowed (lc "door,sendrecv,xyz,file.wav") []
    (lc "door") (lc "sendrecv") (lc "xyz") (lc "file.wav")
    (by decide) (by decide)

/-- Claim C6: for every global-default flag assignment, overlaying the
account extra string "icprivacy=yes,icallow_force=yes" yields
privacy and allowForce true with the other three flags unchanged, and
overlaying "bogus=xyz" yields exactly the global defaults. -/
theorem C6_policy_resolution (g : Policy) :
    resolve g (lc "icprivacy=yes,icallow_force=yes")
      = { g with privacy := true, allow_force := true }
    ∧ resolve g (lc "bogus=xyz") = g := by
  cases g
  exact ⟨rfl, rfl⟩

/-- A value shorter than the compared string always fails the
`strncmp` compare over that string's length: the value's terminating
NUL mismatches the next real character. -/
theorem strncmp0_of_short (subj val : List Char)
    (h : val.length < subj.length) :
    strncmp0 val subj subj.length = false := by
  induction subj generalizing val with
  | nil => simp at h
  | cons b bs ih =>
      cases val with
      | nil => rfl
      | cons a as =>
          have h2 : as.length < bs.length := by
            simpa [Nat.succ_lt_succ_iff] using h
          show (a == b && strncmp0 as bs bs.length) = false
          rw [ih as h2]
          simp

/-- Claim C9: a header value is classified Preview iff it starts with
the configured preview-subject literal (default "preview") under the
same prefix semantics as the registry match predicate
`iccustom_lookup`; in particular a value strictly shorter than the
literal is never classified Preview. -/
theorem C9_preview_prefix_semantics (cfg : GlobalConf) (val : List Char)
    (d : SdpDir) (al : Bool) (au : List Char) :
    is_preview cfg val
      = iccustom_lookup val
          { subject := preview_subject cfg, dir := d, allowed := al, auffile := au }
    ∧ (val.length < (preview_subject cfg).length → is_preview cfg val = false) := by
  constructor
  · unfold is_preview iccustom_lookup
    by_cases h : val.length < (preview_subject cfg).length
    · simp only [h, if_true]
      exact strncmp0_of_short _ _ h
    · simp only [h, if_false]
  · intro h
    exact strncmp0_of_short _ _ h

/-- Witness for C9: "prev" is shorter than the default literal
"preview" and is not classified Preview. -/
theorem C9_preview_prefix_semantics_witness :
    (lc "prev").length < (preview_subject {}).length
    ∧ is_preview {} (lc "prev") = false :=
  ⟨by decide,
   (C9_preview_prefix_semantics {} (lc "prev") .inactive false []).2 (by decide)⟩

/-- Claim C1: for every registry, entry E at position i and subject
string s such that E's match predicate accepts s while every
earlier-inserted entry's predicate rejects s, the registry lookup
returns E — the first match in insertion order. -/
theorem C1_registry_first_match (reg : List Iccustom) (s : List Char)
    (i : Nat) (hi : i < reg.length)
    (hm : iccustom_lookup s (reg.get ⟨i, hi⟩) = true)
    (he : ∀ j (hj : j < i),
        iccustom_lookup s (reg.get ⟨j, Nat.lt_trans hj hi⟩) = false) :
    iccustom_find reg s = some (reg.get ⟨i, hi⟩) := by
  induction reg generalizing i with
  | nil => simp at hi
  | cons c cs ih =>
      cases i with
      | zero =>
          have hm0 : iccustom_lookup s c = true := hm
          show List.find? (fun x => iccustom_lookup s x) (c :: cs) = some c
          rw [List.find?_cons_of_pos _ hm0]
      | succ n =>
          have h0 : iccustom_lookup s c = false :=
            he 0 (Nat.succ_pos n)
          have hn : n < cs.length := Nat.lt_of_succ_lt_succ hi
          have hm2 : iccustom_lookup s (cs.get ⟨n, hn⟩) = true := hm
          have he2 : ∀ j (hj : j < n),
              iccustom_lookup s (cs.get ⟨j, Nat.lt_trans hj hn⟩) = false :=
            fun j hj => he (j + 1) (Nat.succ_lt_succ hj)
          unfold iccustom_find
          rw [List.find?_cons_of_neg _ (by simp [h0])]
          exact ih n hn hm2 he2

/-- Witness for C1: a registry of two entries, the subject "door5"
matching only the second. -/
theorem C1_registry_first_match_witness :
    iccustom_find
      [{ subject := lc "Intercom/", dir := .sendrecv, allowed := true, auffile := lc "a.wav" },
       { subject := lc "door", dir := .sendonly, allowed := false, auffile := lc "b.wav" }]
      (lc "door5")
      = some { subject := lc "door", dir := .sendonly, allowed := false, auffile := lc "b.wav" } :=
  C1_registry_first_match
    [{ subject := lc "Intercom/", dir := .sendrecv, allowed := true, auffile := lc "a.wav" },
     { subject := lc "door", dir := .sendonly, allowed := false, auffile := lc "b.wav" }]
    (lc "door5") 1 (by decide) (by decide)
    (by
      intro j hj
      have hj0 : j = 0 := by omega
      subst hj0
      show iccustom_lookup (lc "door5")
          { subject := lc "Intercom/", dir := .sendrecv,
            allowed := true, auffile := lc "a.wav" } = false
      decide)

/-- Claim C2: on an Incoming event with header ("Subject","hidden"),
for every registry, configuration, account extra string and answer
delay: when the effective allowHidden flag is false the engine hangs up
with 406 "Not Acceptable", emits the call-closed notification carrying
that reason and schedules deferred destruction; when it is true and the
answer delay is non-negative it arms the delayed-auto-answer timer; in
every case no generic "incoming" notification is emitted. -/
theorem C2_hidden_admission (reg : List Iccustom) (cfg : GlobalConf)
    (extra : List Char) (adelay : Int) :
    incoming_handler reg cfg extra adelay
        (some (lc "Subject")) (some (lc "hidden"))
      = (if (resolve (conf_policy cfg) extra).allow_hidden then
           (if 0 ≤ adelay then [Action.startAnswtmr adelay] else [])
         else reject_call 406 (lc "Not Acceptable"))
    ∧ ((incoming_handler reg cfg extra adelay
          (some (lc "Subject")) (some (lc "hidden"))).all
         (fun a => !(is_incoming_ev a))) = true := by
  have hnorm : is_normal (lc "hidden") = false := by decide
  have hhid : is_hidden (lc "hidden") = true := by decide
  have hic : is_intercom reg cfg (lc "Subject") (lc "hidden") = true := by
    unfold is_intercom
    rw [if_neg (by decide)]
    simp [hhid]
  have heq : incoming_handler reg cfg extra adelay
      (some (lc "Subject")) (some (lc "hidden"))
      = (if (resolve (conf_policy cfg) extra).allow_hidden then
           (if 0 ≤ adelay then [Action.startAnswtmr adelay] else [])
         else reject_call 406 (lc "Not Acceptable")) := by
    simp only [incoming_handler]
    by_cases h : (resolve (conf_policy cfg) extra).allow_hidden = true
    · by_cases h2 : (0 : Int) ≤ adelay
      · simp [hic, hnorm, hhid, h, h2]
      · simp [hic, hnorm, hhid, h, h2]
    · simp [hic, hnorm, hhid, h]
  refine ⟨heq, ?_⟩
  rw [heq]
  by_cases h : (resolve (conf_policy cfg) extra).allow_hidden = true
  · by_cases h2 : (0 : Int) ≤ adelay
    · rw [if_pos h, if_pos h2]; simp [is_incoming_ev]
    · rw [if_pos h, if_neg h2]; simp
  · rw [if_neg h]; simp [reject_call, is_incoming_ev]

/-- Claim C3: on an Incoming event with header ("Subject","forcetalk"),
provided no registry entry prefixes "forcetalk" (so the custom branch
does not shadow the literal): when the effective allowForce flag is
false the engine hangs up with 406 "Not Acceptable" and emits no
override notification; when it is true it emits exactly one override
notification "sip_autoanswer_aufile:icforce_aufile" and performs no
hangup. -/
theorem C3_forcetalk_admission (reg : List Iccustom) (cfg : GlobalConf)
    (extra : List Char) (adelay : Int)
    (hreg : ic_is_custom reg (lc "forcetalk") = false) :
    incoming_handler reg cfg extra adelay
        (some (lc "Subject")) (some (lc "forcetalk"))
      = Action.moduleEvent (lc "incoming") (lc "forcetalk") ::
        (if (resolve (conf_policy cfg) extra).allow_force then
           [Action.moduleEvent (lc "override-aufile")
              (lc "sip_autoanswer_aufile:icforce_aufile")]
         else reject_call 406 (lc "Not Acceptable"))
    ∧ ((incoming_handler reg cfg extra adelay
          (some (lc "Subject")) (some (lc "forcetalk"))).filter
            is_override_ev).length
        = (if (resolve (conf_policy cfg) extra).allow_force then 1 else 0)
    ∧ ((incoming_handler reg cfg extra adelay
          (some (lc "Subject")) (some (lc "forcetalk"))).filter
            is_hangup_act).length
        = (if (resolve (conf_policy cfg) extra).allow_force then 0 else 1) := by
  have hnorm : is_normal (lc "forcetalk") = false := by decide
  have hhid : is_hidden (lc "forcetalk") = false := by decide
  have hann : is_announcement (lc "forcetalk") = false := by decide
  have hft : is_forcetalk (lc "forcetalk") = true := by decide
  have hic : is_intercom reg cfg (lc "Subject") (lc "forcetalk") = true := by
    unfold is_intercom
    rw [if_neg (by decide)]
    simp [hft]
  have heq : incoming_handler reg cfg extra adelay
      (some (lc "Subject")) (some (lc "forcetalk"))
      = Action.moduleEvent (lc "incoming") (lc "forcetalk") ::
        (if (resolve (conf_policy cfg) extra).allow_force then
           [Action.moduleEvent (lc "override-aufile")
              (lc "sip_autoanswer_aufile:icforce_aufile")]
         else reject_call 406 (lc "Not Acceptable")) := by
    simp only [incoming_handler]
    by_cases h : (resolve (conf_policy cfg) extra).allow_force = true
    · simp [hic, hnorm, hhid, hann, hft, hreg, h]
    · simp [hic, hnorm, hhid, hann, hft, hreg, h]
  refine ⟨heq, ?_, ?_⟩ <;> rw [heq] <;>
    by_cases h : (resolve (conf_policy cfg) extra).allow_force = true
  · rw [if_pos h, if_pos h]; decide
  · rw [if_neg h, if_neg h]; decide
  · rw [if_pos h, if_pos h]; decide
  · rw [if_neg h, if_neg h]; decide

/-- Witness for C3 at the empty registry (so nothing prefixes
"forcetalk") and default configuration. -/
theorem C3_forcetalk_admission_witness :
    incoming_handler [] {} (lc "") 0 (some (lc "Subject")) (some (lc "forcetalk"))
      = Action.moduleEvent (lc "incoming") (lc "forcetalk") ::
        (if (resolve (conf_policy {}) (lc "")).allow_force then
           [Action.moduleEvent (lc "override-aufile")
              (lc "sip_autoanswer_aufile:icforce_aufile")]
         else reject_call 406 (lc "Not Acceptable")) :=
  (C3_forcetalk_admission [] {} (lc "") 0 (by decide)).1

/-- A timer-start list contains no hangup. -/
theorem filter_hg_replicate (n : Nat) :
    (List.replicate n (HAction.tmrStart 20)).filter is_hg_act = [] := by
  induction n with
  | zero => rfl
  | succ n ih => simp [List.replicate_succ, is_hg_act, ih]

/-- Claim C4: in state Close, every timer fire that finds the outbound
DTMF buffer non-empty hangs nothing up and re-arms the 20 ms timer with
the machine staying in Close; the first fire that finds it empty
performs exactly one hangup and destroys the session exactly once, the
destruction cancelling its timer. -/
theorem C4_close_poll (send : Char → Option Nat) (hc : HiddenCall)
    (n : Nat) (h : hc.state = .close) :
    timer_run send hc (List.replicate n false)
      = (some (if n = 0 then hc else { hc with tmr := true }),
         List.replicate n (HAction.tmrStart 20))
    ∧ timer_run send hc (List.replicate n false ++ [true])
      = (none, List.replicate n (HAction.tmrStart 20)
               ++ [HAction.hangup 0, HAction.tmrCancel])
    ∧ ((List.replicate n (HAction.tmrStart 20)).filter is_hg_act).length = 0
    ∧ ((List.replicate n (HAction.tmrStart 20)
          ++ [HAction.hangup 0, HAction.tmrCancel]).filter is_hg_act).length
        = 1 := by
  refine ⟨?_, ?_, ?_, ?_⟩
  · induction n generalizing hc with
    | zero => simp [timer_run]
    | succ n ih =>
        have step : proc_hidden_call send false hc
            = (some { hc with tmr := true }, [HAction.tmrStart 20]) := by
          unfold proc_hidden_call
          rw [h]
          rfl
        have h2 : ({ hc with tmr := true } : HiddenCall).state = .close := h
        have ih2 := ih { hc with tmr := true } h2
        simp only [List.replicate_succ, timer_run, step, ih2]
        cases n <;> simp
  · induction n generalizing hc with
    | zero =>
        have step : proc_hidden_call send true hc
            = (none, [HAction.hangup 0, HAction.tmrCancel]) := by
          unfold proc_hidden_call
          rw [h]
          rfl
        simp [timer_run, step]
    | succ n ih =>
        have step : proc_hidden_call send false hc
            = (some { hc with tmr := true }, [HAction.tmrStart 20]) := by
          unfold proc_hidden_call
          rw [h]
          rfl
        have h2 : ({ hc with tmr := true } : HiddenCall).state = .close := h
        have ih2 := ih { hc with tmr := true } h2
        simp [List.replicate_succ, List.cons_append, timer_run, step, ih2]
  · rw [filter_hg_replicate]
    rfl
  · rw [List.filter_append, filter_hg_replicate]
    rfl

/-- Witness for C4: two non-empty polls then a drained poll on a
concrete Close-state session. -/
theorem C4_close_poll_witness :
    timer_run (fun _ => none)
        { call := 3, state := .close, tmr := true, code := lc "9" }
        (List.replicate 2 false ++ [true])
      = (none, List.replicate 2 (HAction.tmrStart 20)
               ++ [HAction.hangup 0, HAction.tmrCancel]) :=
  (C4_close_poll (fun _ => none)
      { call := 3, state := .close, tmr := true, code := lc "9" }
      2 rfl).2.1

/-- When every `call_send_digit` succeeds, the inner loop attempts
exactly the code. -/
theorem send_code_loop_all_ok (send : Char → Option Nat)
    (hsend : ∀ c, send c = none) (code : List Char) :
    send_code_loop send code = (code, none) := by
  induction code with
  | nil => rfl
  | cons c cs ih => simp [send_code_loop, hsend c, ih]

/-- Filtering the digit actions out of a mapped digit list keeps all of
them. -/
theorem filter_digit_map (l : List Char) :
    (l.map HAction.sendDigit).filter is_digit_act = l.map HAction.sendDigit := by
  induction l with
  | nil => rfl
  | cons c cs ih => simp [is_digit_act, ih]

/-- `find?` skips a first chunk that contains no match. -/
theorem find?_append_of_none {α : Type} (p : α → Bool) (l1 l2 : List α)
    (h : l1.find? p = none) :
    (l1 ++ l2).find? p = l2.find? p := by
  induction l1 with
  | nil => rfl
  | cons x xs ih =>
      have hall := List.find?_eq_none.mp h
      have hx : ¬ p x = true := hall x (by simp)
      have hxs : xs.find? p = none :=
        List.find?_eq_none.mpr (fun a ha => hall a (by simp [ha]))
      simp only [List.cons_append]
      rw [List.find?_cons_of_neg _ hx, ih hxs]

/-- `update_first` skips a first chunk that contains no match. -/
theorem update_first_append_of_none (p : HiddenCall → Bool)
    (f : HiddenCall → HiddenCall) (l1 l2 : List HiddenCall)
    (h : l1.find? p = none) :
    update_first p f (l1 ++ l2) = l1 ++ update_first p f l2 := by
  induction l1 with
  | nil => rfl
  | cons x xs ih =>
      have hall := List.find?_eq_none.mp h
      have hx : ¬ p x = true := hall x (by simp)
      have hxs : xs.find? p = none :=
        List.find?_eq_none.mpr (fun a ha => hall a (by simp [ha]))
      simp only [List.cons_append, update_first]
      rw [if_neg hx]
      simp only [List.append_eq]
      rw [ih hxs]

/-- Claim C5: starting a freshly appended session (state Established)
succeeds: it moves the session to Send with the timer armed; the
subsequent Send step moves it to Close and, with every send
succeeding, emits one DTMF digit per character of the stored code plus
the release digit — `len(code) + 1` digits in total; a second start
call is rejected with EINVAL and leaves the session list unchanged. -/
theorem C5_hidden_start_once (send : Char → Option Nat) (b : Bool)
    (prior : List HiddenCall) (call : Nat) (code : List Char)
    (hsend : ∀ c, send c = none)
    (hfresh : call_hidden_find prior call = none) :
    call_hidden_start (hidden_call_append prior call code) call
      = (prior ++ [{ call := call, state := .send, tmr := true, code := code }], 0)
    ∧ proc_hidden_call send b
        { call := call, state := .send, tmr := true, code := code }
      = (some { call := call, state := .close, tmr := true, code := code },
         (code ++ [KEYCODE_REL]).map HAction.sendDigit ++ [HAction.tmrStart 20])
    ∧ (((code ++ [KEYCODE_REL]).map HAction.sendDigit
          ++ [HAction.tmrStart 20]).filter is_digit_act).length
        = code.length + 1
    ∧ call_hidden_start
        (prior ++ [{ call := call, state := .send, tmr := true, code := code }]) call
      = (prior ++ [{ call := call, state := .send, tmr := true, code := code }],
         EINVAL) := by
  have hfind : ∀ (st : HiddenState) (tm : Bool),
      call_hidden_find
          (prior ++ [{ call := call, state := st, tmr := tm, code := code }]) call
        = some { call := call, state := st, tmr := tm, code := code } := by
    intro st tm
    unfold call_hidden_find
    rw [find?_append_of_none _ _ _ hfresh]
    exact List.find?_cons_of_pos _ (by simp [find_hidden_call])
  refine ⟨?_, ?_, ?_, ?_⟩
  · unfold call_hidden_start hidden_call_append
    rw [hfind .established false]
    simp only [if_neg (by simp : ¬ (HiddenState.established ≠ HiddenState.established))]
    rw [update_first_append_of_none _ _ _ _ hfresh]
    simp [update_first, find_hidden_call]
  · unfold proc_hidden_call call_send_code
    simp [send_code_loop_all_ok send hsend code, hsend]
  · rw [List.filter_append, filter_digit_map]
    simp [is_digit_act]
  · unfold call_hidden_start
    rw [hfind .send true]
    simp

/-- Witness for C5: a fresh session for call 7 with code "12". -/
theorem C5_hidden_start_once_witness :
    call_hidden_start (hidden_call_append [] 7 (lc "12")) 7
      = ([{ call := 7, state := .send, tmr := true, code := lc "12" }], 0) :=
  (C5_hidden_start_once (fun _ => none) true [] 7 (lc "12")
      (fun _ => rfl) rfl).1

/-- Claim C7 counterexample: appending a session for call 5 to a
registry that already holds one for call 5 succeeds and changes the
registry — afterwards two sessions for call 5 coexist, so the claimed
one-session-per-call error does not occur. -/
theorem C7_cex_duplicate_session :
    (hidden_call_append
        [{ call := 5, state := .established, tmr := false, code := lc "1" }]
        5 (lc "2")).length = 2
    ∧ ((hidden_call_append
          [{ call := 5, state := .established, tmr := false, code := lc "1" }]
          5 (lc "2")).filter (fun hc => hc.call == 5)).length = 2
    ∧ hidden_call_append
        [{ call := 5, state := .established, tmr := false, code := lc "1" }]
        5 (lc "2")
      ≠ [{ call := 5, state := .established, tmr := false, code := lc "1" }] := by
  decide

/-- Claim C7 as amended: `hidden_call_append` performs no per-call
uniqueness check — it unconditionally appends a fresh Established
session and reports success, so a second session for the same call can
coexist with the first; `call_hidden_find` then still returns the
earlier session. -/
theorem C7_append_unchecked (hcalls : List HiddenCall) (call : Nat)
    (code : List Char) :
    hidden_call_append hcalls call code
      = hcalls ++ [{ call := call, state := .established, tmr := false, code := code }]
    ∧ call_hidden_find (hidden_call_append hcalls call code) call
      = some ((call_hidden_find hcalls call).getD
          { call := call, state := .established, tmr := false, code := code }) := by
  refine ⟨rfl, ?_⟩
  unfold hidden_call_append call_hidden_find
  induction hcalls with
  | nil => simp [find_hidden_call]
  | cons x xs ih =>
      by_cases hx : find_hidden_call call x = true
      · simp only [List.cons_append]
        rw [List.find?_cons_of_pos _ hx, List.find?_cons_of_pos _ hx]
        rfl
      · simp only [List.cons_append]
        rw [List.find?_cons_of_neg _ (by simp [hx]),
            List.find?_cons_of_neg _ (by simp [hx])]
        exact ih

/-- The digit-send oracle of the C8 counterexample: sending the digit
'1' fails with error 5, every other digit succeeds. -/
def send_fail_1 : Char → Option Nat :=
  fun c => if c = '1' then some 5 else none

/-- Claim C8 counterexample: with code "12" and the send of '1'
failing, only '1' is ever attempted — the remaining character '2' and
the release digit are not sent, refuting the claimed best-effort
continuation. -/
theorem C8_cex_abort_on_error :
    call_send_code send_fail_1 (lc "12") = (['1'], some 5)
    ∧ '2' ∉ (call_send_code send_fail_1 (lc "12")).1
    ∧ KEYCODE_REL ∉ (call_send_code send_fail_1 (lc "12")).1 := by
  decide

/-- Claim C8 as amended: digit transmission is not best-effort — the
first failing send aborts the sequence: the characters before the
failure and the failing character itself are the only attempts, no
later character and no release digit is sent, and the error is
returned. -/
theorem C8_send_aborts_on_error (send : Char → Option Nat)
    (pre post : List Char) (c : Char) (e : Nat)
    (hpre : ∀ d ∈ pre, send d = none) (hc : send c = some e) :
    call_send_code send (pre ++ c :: post) = (pre ++ [c], some e) := by
  have hloop : send_code_loop send (pre ++ c :: post) = (pre ++ [c], some e) := by
    induction pre with
    | nil => simp [send_code_loop, hc]
    | cons d ds ih =>
        have hd : send d = none := hpre d (by simp)
        have ih2 := ih (fun x hx => hpre x (by simp [hx]))
        simp [send_code_loop, hd, ih2]
  unfold call_send_code
  rw [hloop]

/-- Witness for the amended C8: code "12" with '1' failing. -/
theorem C8_send_aborts_on_error_witness :
    call_send_code send_fail_1 ([] ++ '1' :: ['2']) = ([] ++ ['1'], some 5) :=
  C8_send_aborts_on_error send_fail_1 [] ['2'] '1' 5
    (by intro d hd; simp at hd) (by decide)

end Intercom
